import Mathlib

/-!
# Verification of the deeplook order-book reconstruction core

Shallow embedding of the pure parts of `crates/orderbook` (and the cache list
bookkeeping of `crates/utils/src/cache.rs`), with theorems checking the
natural-language specification against the code.

Conventions:
* Rust `i64` values are modelled as `Int` (none of the verified paths depend on
  64-bit wrap-around), `u64`/`u32` values as `Nat`; where overflow/underflow of
  unsigned arithmetic matters (`OrderbookManager::new`) the checked semantics is
  made explicit with `Option`.
* `Vec<Order>` sides are `List Order`; `iter_mut().find(..)` becomes a
  first-match recursion, `push` appends at the end, `retain` is `filter`.
* Database, RPC and Redis I/O is outside the embedding; functions that mix I/O
  with pure logic are embedded on their pure core, taking the fetched rows as
  arguments and returning the values the code would write.
-/

namespace Deeplook

/-! ## Data model (`crates/orderbook/src/orderbook.rs`, `deeplook_schema::models`)

`OrderUpdate` and `OrderFill` carry many metadata fields (digests, traders,
fees, ...) that never influence the book; only the fields read by the
order-book engine are kept.  Field order follows the Rust declarations. -/

structure Order where
  size : Int
  price : Int
deriving Repr, DecidableEq

structure Orderbook where
  asks : List Order
  bids : List Order
deriving Repr, DecidableEq

inductive OrderUpdateStatus where
  | Placed
  | Canceled
  | Expired
  | Modified
deriving Repr, DecidableEq

structure OrderUpdate where
  checkpoint : Int
  status : OrderUpdateStatus
  price : Int
  is_bid : Bool
  original_quantity : Int
  quantity : Int
deriving Repr, DecidableEq

structure OrderFill where
  checkpoint : Int
  price : Int
  taker_is_bid : Bool
  base_quantity : Int
  quote_quantity : Int
  onchain_timestamp : Int
deriving Repr, DecidableEq

/-- The in-memory book state of `OrderbookManager` (the pool metadata, RPC
client and cache handle are I/O-side and not part of the book state). -/
structure OrderbookManager where
  orderbook : Orderbook
  initial_checkpoint : Int
deriving Repr, DecidableEq

/-! ## Order-book engine operations (`OrderbookManager` methods) -/

/-- Rust `OrderbookManager::should_skip_order`. -/
def should_skip_order (m : OrderbookManager) (checkpoint : Int) : Bool :=
  if m.initial_checkpoint ≥ checkpoint then true else false

/-- The body of `add_order` on one side: mutate the first entry at `price`
(`iter_mut().find`), else `push` a new entry at the end. -/
def addToSide (side : List Order) (price size : Int) : List Order :=
  match side with
  | [] => [⟨size, price⟩]
  | o :: rest =>
    if o.price = price then ⟨o.size + size, o.price⟩ :: rest
    else o :: addToSide rest price size

/-- The body of `subtract_order` on one side: decrement the first entry at
`price`, else `push` an entry holding `-size`. -/
def subFromSide (side : List Order) (price size : Int) : List Order :=
  match side with
  | [] => [⟨-size, price⟩]
  | o :: rest =>
    if o.price = price then ⟨o.size - size, o.price⟩ :: rest
    else o :: subFromSide rest price size

/-- Rust `OrderbookManager::add_order`. -/
def add_order (m : OrderbookManager) (price size : Int) ( is_bid : Bool) :
    OrderbookManager :=
  if is_bid then
    { m with orderbook := { m.orderbook with bids := addToSide m.orderbook.bids price size } }
  else
    { m with orderbook := { m.orderbook with asks := addToSide m.orderbook.asks price size } }

/-- Rust `OrderbookManager::subtract_order`. -/
def subtract_order (m : OrderbookManager) (price size : Int) ( is_bid : Bool) :
    OrderbookManager :=
  if is_bid then
    { m with orderbook := { m.orderbook with bids := subFromSide m.orderbook.bids price size } }
  else
    { m with orderbook := { m.orderbook with asks := subFromSide m.orderbook.asks price size } }

/-- Rust `OrderbookManager::handle_fill`. -/
def handle_fill (m : OrderbookManager) (order : OrderFill) : OrderbookManager :=
  if should_skip_order m order.checkpoint then m
  else subtract_order m order.price order.base_quantity (!order.taker_is_bid)

/-- Rust `OrderbookManager::handle_update`. -/
def handle_update (m : OrderbookManager) (order : OrderUpdate) : OrderbookManager :=
  if should_skip_order m order.checkpoint then m
  else
    match order.status with
    | .Placed => add_order m order.price order.quantity order.is_bid
    | .Canceled => subtract_order m order.price order.quantity order.is_bid
    | .Expired => subtract_order m order.price order.quantity order.is_bid
    | .Modified => subtract_order m order.price (order.original_quantity - order.quantity) order.is_bid

/-- Rust `OrderbookManager::is_valid_orderbook`. -/
def is_valid_orderbook (m : OrderbookManager) : Bool :=
  let all_sizes_valid := (m.orderbook.asks ++ m.orderbook.bids).all fun o => decide (0 ≤ o.size)
  let min_ask := (m.orderbook.asks.map Order.price).min?
  let max_bid := (m.orderbook.bids.map Order.price).max?
  let prices_ok :=
    match min_ask, max_bid with
    | some ask, some bid => decide (bid < ask)
    | _, _ => true
  all_sizes_valid && prices_ok

/-- Rust `retain(|o| o.size != 0)` on one side. -/
def removeZerosFromSide (side : List Order) : List Order :=
  side.filter fun o => decide (o.size ≠ 0)

/-- Rust `OrderbookManager::remove_zero_orders`. -/
def remove_zero_orders (m : OrderbookManager) : OrderbookManager :=
  { m with orderbook := { asks := removeZerosFromSide m.orderbook.asks,
                          bids := removeZerosFromSide m.orderbook.bids } }

/-- The observable outcome of `OrderbookManager::handle_batch`: the new book
state and the two validity flags the code records (they drive the transition
logging). -/
structure BatchOutcome where
  manager : OrderbookManager
  is_valid_before : Bool
  is_valid_after : Bool
deriving Repr, DecidableEq

/-- Rust `OrderbookManager::handle_batch` (the Redis upload at the end is I/O and is
modelled separately, see the cache section). Note the order of steps in the
source: `is_valid_after` is computed *before* `remove_zero_orders`. -/
def handle_batch (m : OrderbookManager) (updates : List OrderUpdate)
    (fills : List OrderFill) : BatchOutcome :=
  let is_valid_before := is_valid_orderbook m
  let afterUpdates := updates.foldl handle_update m
  let afterFills := fills.foldl handle_fill afterUpdates
  let is_valid_after := is_valid_orderbook afterFills
  { manager := remove_zero_orders afterFills
    is_valid_before := is_valid_before
    is_valid_after := is_valid_after }

/-! ## Views used in theorem statements -/

/-- The aggregated size resting at `price` on a side (0 when the level is
absent), matching the `get(price, 0)` reading of the spec. -/
def lookupSize (side : List Order) (price : Int) : Int :=
  match side.find? (fun o => decide (o.price = price)) with
  | some o => o.size
  | none => 0

/-- The side of the book an event with the given `is_bid` flag targets. -/
def sideOf (ob : Orderbook) ( is_bid : Bool) : List Order :=
  if is_bid then ob.bids else ob.asks

/-- The signed size change an `OrderUpdate` is specified to cause at its price
level: `Placed` adds `quantity`, `Canceled`/`Expired` subtract `quantity`,
`Modified` subtracts the delta `original_quantity - quantity`. -/
def updateDelta (e : OrderUpdate) : Int :=
  match e.status with
  | .Placed => e.quantity
  | .Canceled => -e.quantity
  | .Expired => -e.quantity
  | .Modified => -(e.original_quantity - e.quantity)

/-! ## Lemmas about side mutations -/

theorem lookupSize_nil (p : Int) : lookupSize [] p = 0 := rfl

theorem lookupSize_cons (o : Order) (rest : List Order) (p : Int) :
    lookupSize (o :: rest) p = if o.price = p then o.size else lookupSize rest p := by
  by_cases h : o.price = p <;> simp [lookupSize, List.find?, h]

theorem lookupSize_addToSide_self (side : List Order) (p q : Int) :
    lookupSize (addToSide side p q) p = lookupSize side p + q := by
  induction side with
  | nil => simp [addToSide, lookupSize_cons, lookupSize_nil]
  | cons o rest ih =>
    by_cases h : o.price = p
    · simp [addToSide, lookupSize_cons, h]
    · simp [addToSide, lookupSize_cons, h, ih]

theorem lookupSize_addToSide_other (side : List Order) (p q p' : Int) (h : p' ≠ p) :
    lookupSize (addToSide side p q) p' = lookupSize side p' := by
  have hne : ¬ (p = p') := fun hc => h hc.symm
  induction side with
  | nil => simp [addToSide, lookupSize_cons, lookupSize_nil, hne]
  | cons o rest ih =>
    by_cases hop : o.price = p
    · have hnp : ¬ (o.price = p') := fun hc => hne (hop.symm.trans hc)
      simp [addToSide, lookupSize_cons, hop, hnp, hne]
    · simp [addToSide, lookupSize_cons, hop, ih]

theorem lookupSize_subFromSide_self (side : List Order) (p q : Int) :
    lookupSize (subFromSide side p q) p = lookupSize side p - q := by
  induction side with
  | nil => simp [subFromSide, lookupSize_cons, lookupSize_nil]
  | cons o rest ih =>
    by_cases h : o.price = p
    · simp [subFromSide, lookupSize_cons, h]
    · simp [subFromSide, lookupSize_cons, h, ih]

theorem lookupSize_subFromSide_other (side : List Order) (p q p' : Int) (h : p' ≠ p) :
    lookupSize (subFromSide side p q) p' = lookupSize side p' := by
  have hne : ¬ (p = p') := fun hc => h hc.symm
  induction side with
  | nil => simp [subFromSide, lookupSize_cons, lookupSize_nil, hne]
  | cons o rest ih =>
    by_cases hop : o.price = p
    · have hnp : ¬ (o.price = p') := fun hc => hne (hop.symm.trans hc)
      simp [subFromSide, lookupSize_cons, hop, hnp, hne]
    · simp [subFromSide, lookupSize_cons, hop, ih]

theorem sideOf_add_order_same (m : OrderbookManager) (p q : Int) (b : Bool) :
    sideOf (add_order m p q b).orderbook b = addToSide (sideOf m.orderbook b) p q := by
  cases b <;> simp [add_order, sideOf]

theorem sideOf_add_order_other (m : OrderbookManager) (p q : Int) (b : Bool) :
    sideOf (add_order m p q b).orderbook (!b) = sideOf m.orderbook (!b) := by
  cases b <;> simp [add_order, sideOf]

theorem sideOf_subtract_order_same (m : OrderbookManager) (p q : Int) (b : Bool) :
    sideOf (subtract_order m p q b).orderbook b = subFromSide (sideOf m.orderbook b) p q := by
  cases b <;> simp [subtract_order, sideOf]

theorem sideOf_subtract_order_other (m : OrderbookManager) (p q : Int) (b : Bool) :
    sideOf (subtract_order m p q b).orderbook (!b) = sideOf m.orderbook (!b) := by
  cases b <;> simp [subtract_order, sideOf]

theorem add_order_initial (m : OrderbookManager) (p q : Int) (b : Bool) :
    (add_order m p q b).initial_checkpoint = m.initial_checkpoint := by
  cases b <;> simp [add_order]

theorem subtract_order_initial (m : OrderbookManager) (p q : Int) (b : Bool) :
    (subtract_order m p q b).initial_checkpoint = m.initial_checkpoint := by
  cases b <;> simp [subtract_order]

theorem handle_update_initial (m : OrderbookManager) (e : OrderUpdate) :
    (handle_update m e).initial_checkpoint = m.initial_checkpoint := by
  unfold handle_update
  by_cases h : should_skip_order m e.checkpoint
  · simp [h]
  · cases hs : e.status <;>
      simp [h, hs, add_order_initial, subtract_order_initial]

theorem handle_fill_initial (m : OrderbookManager) (f : OrderFill) :
    (handle_fill m f).initial_checkpoint = m.initial_checkpoint := by
  unfold handle_fill
  by_cases h : should_skip_order m f.checkpoint
  · simp [h]
  · simp [h, subtract_order_initial]

theorem should_skip_order_iff (m : OrderbookManager) (c : Int) :
    should_skip_order m c = true ↔ c ≤ m.initial_checkpoint := by
  simp [should_skip_order]

/-! ## Claims C1 and C2 -/

/-- C1: For every `OrderUpdate` whose checkpoint exceeds the pool's
`initial_checkpoint`, `handle_update` changes only the side selected by
`is_bid`: the size at `price` moves by `updateDelta` (`Placed` adds `quantity`,
`Canceled`/`Expired` subtract `quantity`, `Modified` subtracts
`original_quantity - quantity`), all other levels of that side are unchanged,
and the opposite side is untouched.  For every event with
`checkpoint ≤ initial_checkpoint` the manager is left unchanged (so an event at
`initial_checkpoint` is rejected and one at `initial_checkpoint + 1` applies). -/
theorem claim_C1 (m : OrderbookManager) (e : OrderUpdate) :
    (m.initial_checkpoint < e.checkpoint →
      lookupSize (sideOf (handle_update m e).orderbook e.is_bid) e.price
          = lookupSize (sideOf m.orderbook e.is_bid) e.price + updateDelta e
        ∧ (∀ p, p ≠ e.price →
            lookupSize (sideOf (handle_update m e).orderbook e.is_bid) p
              = lookupSize (sideOf m.orderbook e.is_bid) p)
        ∧ sideOf (handle_update m e).orderbook (!e.is_bid)
            = sideOf m.orderbook (!e.is_bid))
    ∧ (e.checkpoint ≤ m.initial_checkpoint → handle_update m e = m) := by
  constructor
  · intro hlt
    have hskip : should_skip_order m e.checkpoint = false := by
      rw [Bool.eq_false_iff, Ne, should_skip_order_iff]
      omega
    refine ⟨?_, fun p hp => ?_, ?_⟩
    · cases hs : e.status <;>
        simp [handle_update, hskip, hs, updateDelta,
          sideOf_add_order_same, sideOf_subtract_order_same,
          lookupSize_addToSide_self, lookupSize_subFromSide_self, sub_eq_add_neg]
    · cases hs : e.status <;>
        simp [handle_update, hskip, hs,
          sideOf_add_order_same, sideOf_subtract_order_same,
          lookupSize_addToSide_other _ _ _ _ hp,
          lookupSize_subFromSide_other _ _ _ _ hp]
    · cases hs : e.status <;>
        simp [handle_update, hskip, hs,
          sideOf_add_order_other, sideOf_subtract_order_other]
  · intro hle
    have hskip : should_skip_order m e.checkpoint = true :=
      (should_skip_order_iff m e.checkpoint).mpr hle
    simp [handle_update, hskip]

theorem claim_C1_witness :
    ((100 : Int) < 101
      ∧ lookupSize (sideOf (handle_update ⟨⟨[], []⟩, 100⟩
            ⟨101, .Placed, 5, true, 7, 7⟩).orderbook true) 5
          = lookupSize (sideOf (⟨[], []⟩ : Orderbook) true) 5
              + updateDelta ⟨101, .Placed, 5, true, 7, 7⟩)
    ∧ ((100 : Int) ≤ 100
      ∧ handle_update ⟨⟨[], []⟩, 100⟩ ⟨100, .Placed, 5, true, 7, 7⟩
          = ⟨⟨[], []⟩, 100⟩) :=
  ⟨⟨by decide,
    ((claim_C1 ⟨⟨[], []⟩, 100⟩ ⟨101, .Placed, 5, true, 7, 7⟩).1 (by decide)).1⟩,
   ⟨by decide,
    (claim_C1 ⟨⟨[], []⟩, 100⟩ ⟨100, .Placed, 5, true, 7, 7⟩).2 (by decide)⟩⟩

/-- C2: For every `OrderFill` whose checkpoint exceeds
`initial_checkpoint`, `handle_fill` subtracts `base_quantity` from the size at
`price` on the *maker* side (`bids` when `taker_is_bid = false`, `asks` when
`taker_is_bid = true`), leaving other levels and the taker side untouched; and
on the concrete scenario (`initial_checkpoint = 100`, empty book,
`Placed(1000, 50, bid)` at 101, then `Filled(1000, base 20, taker ask)` at 102)
the book ends as `bids = {1000 ↦ 30}`, `asks = {}`. -/
theorem claim_C2 :
    (∀ (m : OrderbookManager) (f : OrderFill), m.initial_checkpoint < f.checkpoint →
      lookupSize (sideOf (handle_fill m f).orderbook (!f.taker_is_bid)) f.price
          = lookupSize (sideOf m.orderbook (!f.taker_is_bid)) f.price - f.base_quantity
        ∧ (∀ p, p ≠ f.price →
            lookupSize (sideOf (handle_fill m f).orderbook (!f.taker_is_bid)) p
              = lookupSize (sideOf m.orderbook (!f.taker_is_bid)) p)
        ∧ sideOf (handle_fill m f).orderbook f.taker_is_bid
            = sideOf m.orderbook f.taker_is_bid)
    ∧ (handle_fill
        (handle_update ⟨⟨[], []⟩, 100⟩ ⟨101, .Placed, 1000, true, 50, 50⟩)
        ⟨102, 1000, false, 20, 20000, 0⟩).orderbook
      = ⟨[], [⟨30, 1000⟩]⟩ := by
  constructor
  · intro m f hlt
    have hskip : should_skip_order m f.checkpoint = false := by
      rw [Bool.eq_false_iff, Ne, should_skip_order_iff]
      omega
    refine ⟨?_, fun p hp => ?_, ?_⟩
    · simp [handle_fill, hskip, sideOf_subtract_order_same, lookupSize_subFromSide_self]
    · simp [handle_fill, hskip, sideOf_subtract_order_same,
        lookupSize_subFromSide_other _ _ _ _ hp]
    · have h := sideOf_subtract_order_other m f.price f.base_quantity (!f.taker_is_bid)
      rw [Bool.not_not] at h
      simpa [handle_fill, hskip] using h
  · decide

theorem claim_C2_witness :
    ((100 : Int) < 102
      ∧ lookupSize (sideOf (handle_fill ⟨⟨[], [⟨50, 1000⟩]⟩, 100⟩
            ⟨102, 1000, false, 20, 20000, 0⟩).orderbook (! false)) 1000
          = lookupSize (sideOf (⟨[], [⟨50, 1000⟩]⟩ : Orderbook) (! false)) 1000 - 20) :=
  ⟨by decide,
   (claim_C2.1 ⟨⟨[], [⟨50, 1000⟩]⟩, 100⟩ ⟨102, 1000, false, 20, 20000, 0⟩ (by decide)).1⟩

/-! ## Claim C4: order of pruning and invariant check in `handle_batch` -/

/-- C4 counterexample: The claim states that zero-size entries are pruned
*before* `valid_after` is recorded, so the post-batch invariant check sees no
zero-size level.  In the source `is_valid_after` is computed *before*
`remove_zero_orders`: from `bids = {1000 ↦ 10}` a `Placed` update of quantity 0
at ask price 900 (checkpoint 101 > 100) leaves a zero-size ask that makes the
recorded `is_valid_after` false, although the pruned book `handle_batch`
returns is valid — so the check was not evaluated on a zero-free book. -/
theorem claim_C4_counterexample :
    (handle_batch ⟨⟨[], [⟨10, 1000⟩]⟩, 100⟩
        [⟨101, .Placed, 900, false, 0, 0⟩] []).is_valid_after = false
    ∧ is_valid_orderbook
        (handle_batch ⟨⟨[], [⟨10, 1000⟩]⟩, 100⟩
          [⟨101, .Placed, 900, false, 0, 0⟩] []).manager = true := by
  decide

/-- C4 amended: In `handle_batch`, `is_valid_after` is the invariant
check (all sizes non-negative; `max bid < min ask` when both sides are
non-empty) evaluated on the book immediately after applying the updates and
fills and *before* zero-size entries are pruned — so it may be evaluated on a
book containing zero-size levels; the pruning then produces the book state the
batch returns, and `is_valid_before` is the same check on the pre-batch book. -/
theorem claim_C4_amended (m : OrderbookManager) (updates : List OrderUpdate)
    (fills : List OrderFill) :
    (handle_batch m updates fills).is_valid_after
        = is_valid_orderbook (fills.foldl handle_fill (updates.foldl handle_update m))
    ∧ (handle_batch m updates fills).manager
        = remove_zero_orders (fills.foldl handle_fill (updates.foldl handle_update m))
    ∧ (handle_batch m updates fills).is_valid_before = is_valid_orderbook m :=
  ⟨rfl, rfl, rfl⟩

/-! ## Claim C5: place followed by cancel restores the book -/

theorem removeZeros_subFromSide_addToSide (l : List Order) (p q : Int) :
    removeZerosFromSide (subFromSide (addToSide l p q) p q)
      = removeZerosFromSide l := by
  induction l with
  | nil => simp [addToSide, subFromSide, removeZerosFromSide]
  | cons o rest ih =>
    by_cases h : o.price = p
    · obtain ⟨s, pr⟩ := o
      subst h
      simp [addToSide, subFromSide, removeZerosFromSide]
    · simp only [addToSide, subFromSide, h, if_false]
      simp [removeZerosFromSide, List.filter_cons] at ih ⊢
      simp [ih]

theorem removeZeros_of_no_zero (l : List Order) (h : ∀ o ∈ l, o.size ≠ 0) :
    removeZerosFromSide l = l :=
  List.filter_eq_self.mpr fun o ho => by simpa using h o ho

/-- C5: For every pool and every book with no zero-size level on either
side, a batch holding `Placed(p, q)` directly followed by `Canceled(p, q)`
(same price, quantity and side, both checkpoints above `initial_checkpoint`)
run through `handle_batch` returns the book unchanged: every level holds its
previous size and no new level remains. -/
theorem claim_C5 (m : OrderbookManager) (p q cp1 cp2 : Int) (b : Bool)
    (hza : ∀ o ∈ m.orderbook.asks, o.size ≠ 0)
    (hzb : ∀ o ∈ m.orderbook.bids, o.size ≠ 0)
    (h1 : m.initial_checkpoint < cp1) (h2 : m.initial_checkpoint < cp2) :
    (handle_batch m
        [⟨cp1, .Placed, p, b, q, q⟩, ⟨cp2, .Canceled, p, b, q, q⟩]
        []).manager.orderbook = m.orderbook := by
  have hskip1 : should_skip_order m cp1 = false := by
    rw [Bool.eq_false_iff, Ne, should_skip_order_iff]
    omega
  have hskip2 : should_skip_order (add_order m p q b) cp2 = false := by
    rw [Bool.eq_false_iff, Ne, should_skip_order_iff, add_order_initial]
    omega
  have ha : removeZerosFromSide m.orderbook.asks = m.orderbook.asks :=
    removeZeros_of_no_zero _ hza
  have hb : removeZerosFromSide m.orderbook.bids = m.orderbook.bids :=
    removeZeros_of_no_zero _ hzb
  have hacancel : removeZerosFromSide (subFromSide (addToSide m.orderbook.asks p q) p q)
      = m.orderbook.asks :=
    (removeZeros_subFromSide_addToSide _ p q).trans ha
  have hbcancel : removeZerosFromSide (subFromSide (addToSide m.orderbook.bids p q) p q)
      = m.orderbook.bids :=
    (removeZeros_subFromSide_addToSide _ p q).trans hb
  simp only [handle_batch, List.foldl, handle_update, hskip1, hskip2,
    Bool.false_eq_true, if_false]
  cases b <;>
    simp [add_order, subtract_order, remove_zero_orders, ha, hb, hacancel, hbcancel]

theorem claim_C5_witness :
    ((∀ o ∈ ([⟨3, 7⟩] : List Order), o.size ≠ 0)
      ∧ (∀ o ∈ ([⟨4, 5⟩] : List Order), o.size ≠ 0)
      ∧ (100 : Int) < 101 ∧ (100 : Int) < 102)
    ∧ (handle_batch ⟨⟨[⟨3, 7⟩], [⟨4, 5⟩]⟩, 100⟩
        [⟨101, .Placed, 6, true, 2, 2⟩, ⟨102, .Canceled, 6, true, 2, 2⟩]
        []).manager.orderbook = ⟨[⟨3, 7⟩], [⟨4, 5⟩]⟩ :=
  ⟨⟨by decide, by decide, by decide, by decide⟩,
   claim_C5 ⟨⟨[⟨3, 7⟩], [⟨4, 5⟩]⟩, 100⟩ 6 2 101 102 true
     (by decide) (by decide) (by decide) (by decide)⟩

/-! ## Claim C8: decimal-factor computation in `OrderbookManager::new` -/

/-- Checked `u32` subtraction: `9 - base_decimals` in `OrderbookManager::new`
panics on underflow (overflow-checked Rust arithmetic), modelled as `none`. -/
def u32_checked_sub (a b : Nat) : Option Nat :=
  if b ≤ a then some (a - b) else none

/-- Largest value of a `u64`. -/
def U64_MAX : Nat := 2 ^ 64 - 1

/-- Checked `u64` power: `(10u64).pow(..)` in `OrderbookManager::new` panics
when the mathematical result exceeds `u64::MAX` (overflow-checked Rust
arithmetic), modelled as `none` — the same checked semantics as the
subtraction. -/
def u64_checked_pow (base exp : Nat) : Option Nat :=
  if base ^ exp ≤ U64_MAX then some (base ^ exp) else none

/-- The `price_factor` computation of `OrderbookManager::new`:
`(10u64).pow(9 - base_decimals + quote_decimals)`, the exponent evaluated left
to right in `u32`, with the checked semantics of both the subtraction and the
power explicit. -/
def price_factor (base_decimals quote_decimals : Nat) : Option Nat :=
  (u32_checked_sub 9 base_decimals).bind fun e =>
    u64_checked_pow 10 (e + quote_decimals)

/-- The `size_factor` computation of `OrderbookManager::new`:
`(10u64).pow(base_decimals)`. -/
def size_factor (base_decimals : Nat) : Option Nat :=
  u64_checked_pow 10 base_decimals

/-- C8 counterexample: the claim asserts that for *every* pool with
`base_asset_decimals ≤ 9` the computation is total with
`price_factor = 10 ^ (9 - d_b + d_q)`.  For `d_b = 6, d_q = 18` the exponent
is 21 and `10 ^ 21 > u64::MAX`, so the `u64` power overflows (panics) and no
value is produced. -/
theorem claim_C8_counterexample :
    (6 : Nat) ≤ 9
    ∧ price_factor 6 18 = none
    ∧ price_factor 6 18 ≠ some (10 ^ (9 - 6 + 18)) := by
  refine ⟨by decide, ?_, ?_⟩ <;>
    simp [price_factor, u32_checked_sub, u64_checked_pow, U64_MAX]

/-- C8 amended: the factor computation of `OrderbookManager::new` is total
exactly for pools with `base_asset_decimals ≤ 9` whose exponent
`9 - d_b + d_q` stays at most 19 (the largest power of ten fitting a `u64`):
then `price_factor = 10 ^ (9 - d_b + d_q)` and `size_factor = 10 ^ d_b`.  For
`base_asset_decimals > 9` the `u32` subtraction `9 - d_b` underflows (panics),
whatever `d_q` is — even when the mathematical exponent `9 - d_b + d_q` would
be non-negative; and for `d_b ≤ 9` with `9 - d_b + d_q ≥ 20` the `u64` power
overflows (panics). -/
theorem claim_C8_amended (d_b d_q : Nat) :
    (d_b ≤ 9 → 9 - d_b + d_q ≤ 19 →
      price_factor d_b d_q = some (10 ^ (9 - d_b + d_q))
        ∧ size_factor d_b = some (10 ^ d_b))
    ∧ (9 < d_b → price_factor d_b d_q = none)
    ∧ (d_b ≤ 9 → 20 ≤ 9 - d_b + d_q → price_factor d_b d_q = none) := by
  have hmax : (10 : Nat) ^ 19 ≤ U64_MAX := by decide
  refine ⟨fun h1 h2 => ⟨?_, ?_⟩, fun h => ?_, fun h1 h2 => ?_⟩
  · have hfit : (10 : Nat) ^ (9 - d_b + d_q) ≤ U64_MAX :=
      le_trans (Nat.pow_le_pow_right (by omega) h2) hmax
    simp [price_factor, u32_checked_sub, u64_checked_pow, h1, hfit]
  · have hfit : (10 : Nat) ^ d_b ≤ U64_MAX :=
      le_trans (Nat.pow_le_pow_right (by omega) (le_trans h1 (by omega))) hmax
    simp [size_factor, u64_checked_pow, hfit]
  · rw [price_factor, u32_checked_sub, if_neg (by omega)]
    rfl
  · have hbig : ¬ ((10 : Nat) ^ (9 - d_b + d_q) ≤ U64_MAX) := by
      have h20 : (10 : Nat) ^ 20 ≤ 10 ^ (9 - d_b + d_q) :=
        Nat.pow_le_pow_right (by omega) h2
      have : U64_MAX < (10 : Nat) ^ 20 := by decide
      omega
    simp [price_factor, u32_checked_sub, u64_checked_pow, h1, hbig]

theorem claim_C8_amended_witness :
    ((6 : Nat) ≤ 9 ∧ (9 : Nat) - 6 + 9 ≤ 19
      ∧ price_factor 6 9 = some (10 ^ 12) ∧ size_factor 6 = some (10 ^ 6))
    ∧ ((9 : Nat) < 14 ∧ price_factor 14 9 = none)
    ∧ ((6 : Nat) ≤ 9 ∧ (20 : Nat) ≤ 9 - 6 + 18 ∧ price_factor 6 18 = none) :=
  ⟨⟨by decide, by decide,
    ((claim_C8_amended 6 9).1 (by decide) (by decide)).1,
    ((claim_C8_amended 6 9).1 (by decide) (by decide)).2⟩,
   ⟨by decide, (claim_C8_amended 14 9).2.1 (by decide)⟩,
   ⟨by decide, by decide, (claim_C8_amended 6 18).2.2 (by decide) (by decide)⟩⟩

/-! ## Claim C6: decode-failure handling in the live handlers

The handlers walk the type-matched events of one transaction and attempt
`bcs::from_bytes` on each payload; the outcome of that external decode is the
`Option` in the input lists below. -/

/-- Per-transaction event walk of `OrderbookOrderUpdateHandler::process`:
`if let Ok(event) = bcs::from_bytes(..)` pushes a decoded payload and silently
skips a failed one, continuing with the next event. -/
def updateHandlerTxEvents : List (Option OrderUpdate) → List OrderUpdate
  | [] => []
  | some u :: rest => u :: updateHandlerTxEvents rest
  | none :: rest => updateHandlerTxEvents rest

/-- The `try_fold` over one transaction's type-matched events in
`OrderbookOrderFillHandler::process`: `bcs::from_bytes(&ev.contents)?`
short-circuits the whole fold on the first decode failure. -/
def fillHandlerTxFold : List (Option OrderFill) → Option (List OrderFill)
  | [] => some []
  | none :: _ => none
  | some f :: rest => (fillHandlerTxFold rest).map fun fs => f :: fs

/-- The fills of one transaction that `OrderbookOrderFillHandler::process`
actually hands to `handle_fill`: the `if let Ok(fills) = result` guard drops
every fill of the transaction when the fold ended in `Err`; the handler still
returns `Ok` to the framework either way. -/
def fillHandlerTxApplied (events : List (Option OrderFill)) : List OrderFill :=
  match fillHandlerTxFold events with
  | some fills => fills
  | none => []

/-- C6 counterexample: The claim states that a binary-decode failure of
a single event skips that event alone and every other event of the same
transaction is still processed.  In the fill handler a transaction whose first
type-matched event fails to decode and whose second decodes fine applies *no*
fill at all — the decoded second event is dropped too. -/
theorem claim_C6_counterexample :
    fillHandlerTxApplied [none, some ⟨102, 1000, false, 20, 2000, 7⟩] = []
    ∧ fillHandlerTxApplied [none, some ⟨102, 1000, false, 20, 2000, 7⟩]
        ≠ [⟨102, 1000, false, 20, 2000, 7⟩] := by
  constructor
  · rfl
  · decide

theorem fillHandlerTxFold_eq (events : List (Option OrderFill)) :
    fillHandlerTxFold events
      = if events.all Option.isSome then some (events.filterMap id) else none := by
  induction events with
  | nil => rfl
  | cons e rest ih =>
    cases e with
    | none => simp [fillHandlerTxFold]
    | some f =>
      by_cases h : rest.all Option.isSome <;>
        simp [fillHandlerTxFold, ih, h, List.filterMap_cons]

/-- C6 amended: A binary-decode failure of a single event is non-fatal
and checkpoint processing always succeeds, but the two handlers differ: in the
order-update handler the failing event alone is skipped and every other event
of the transaction is still processed, while in the fill handler one decode
failure discards *all* fill events of that transaction (events of other
transactions in the checkpoint are unaffected, as the discard is
per-transaction). -/
theorem claim_C6_amended (uevents : List (Option OrderUpdate))
    (fevents : List (Option OrderFill)) :
    updateHandlerTxEvents uevents = uevents.filterMap id
    ∧ fillHandlerTxApplied fevents
        = (if fevents.all Option.isSome then fevents.filterMap id else []) := by
  constructor
  · induction uevents with
    | nil => rfl
    | cons e rest ih =>
      cases e <;> simp [updateHandlerTxEvents, ih, List.filterMap_cons]
  · rw [fillHandlerTxApplied, fillHandlerTxFold_eq]
    by_cases h : fevents.all Option.isSome <;> simp [h]

/-! ## Claim C7: the latest-trades ring

`Cache::push` (`crates/utils/src/cache.rs`): `rpush` the serialized value
under the key, then `ltrim(key, -(LATEST_TRADE_SIZE as isize), -1)`.  The
redis list under `latest_trades::{pool_name}` is modelled as a `List`. -/

def LATEST_TRADE_SIZE : Nat := 100

/-- Rust `ltrim(key, -(n as isize), -1)`: keep the `n` newest (rightmost) items. -/
def ltrimKeepLast {α : Type} (n : Nat) (l : List α) : List α :=
  l.drop (l.length - n)

/-- Rust `Cache::push`. -/
def cachePush {α : Type} (l : List α) (v : α) : List α :=
  ltrimKeepLast LATEST_TRADE_SIZE (l ++ [v])

/-- The trade record of §4.6: price, base size, quote size, taker side,
timestamp. -/
structure TradeRecord where
  price : Int
  base_quantity : Int
  quote_quantity : Int
  taker_is_bid : Bool
  onchain_timestamp : Int
deriving Repr, DecidableEq

/-- Modelled from the spec: the publisher code that reacts to an applied fill
(`handle_fill_multiple`, invoked from the live handlers) is not under `src/` —
only its caller and `Cache::push` are.  Per §4.6 every applied fill pushes one
trade record onto the per-pool `latest_trades::{pool_name}` list. -/
def trade_record_of_fill (f : OrderFill) : TradeRecord :=
  ⟨f.price, f.base_quantity, f.quote_quantity, f.taker_is_bid, f.onchain_timestamp⟩

/-- Modelled from the spec: one fill is applied to the book via `handle_fill`
and, when it is not dropped by the checkpoint filter, its trade record is
pushed through `Cache::push`. -/
def publish_fill (st : OrderbookManager × List TradeRecord) (f : OrderFill) :
    OrderbookManager × List TradeRecord :=
  if should_skip_order st.1 f.checkpoint then st
  else (handle_fill st.1 f, cachePush st.2 (trade_record_of_fill f))

/-- Modelled from the spec: a sequence of fills delivered to one pool. -/
def publish_fills (st : OrderbookManager × List TradeRecord)
    (fills : List OrderFill) : OrderbookManager × List TradeRecord :=
  fills.foldl publish_fill st

theorem ltrimKeepLast_length_le {α : Type} (n : Nat) (l : List α) :
    (ltrimKeepLast n l).length ≤ n := by
  simp [ltrimKeepLast]
  omega

theorem ltrimKeepLast_of_le {α : Type} (n : Nat) (l : List α)
    (h : l.length ≤ n) : ltrimKeepLast n l = l := by
  simp [ltrimKeepLast, Nat.sub_eq_zero_of_le h]

theorem ltrimKeepLast_ltrim_append {α : Type} (n : Nat) (a b : List α) :
    ltrimKeepLast n (ltrimKeepLast n a ++ b) = ltrimKeepLast n (a ++ b) := by
  unfold ltrimKeepLast
  rw [← List.drop_append_of_le_length (Nat.sub_le a.length n), List.drop_drop]
  congr 1
  simp only [List.length_drop, List.length_append]
  omega

theorem should_skip_order_handle_fill (m : OrderbookManager) (f : OrderFill)
    (c : Int) : should_skip_order (handle_fill m f) c = should_skip_order m c := by
  simp [should_skip_order, handle_fill_initial]

theorem publish_fills_trades (m : OrderbookManager) (trades : List TradeRecord)
    (fills : List OrderFill) (h : trades.length ≤ LATEST_TRADE_SIZE) :
    (publish_fills (m, trades) fills).2
      = ltrimKeepLast LATEST_TRADE_SIZE
          (trades ++
            ((fills.filter fun f => !should_skip_order m f.checkpoint).map
              trade_record_of_fill)) := by
  induction fills generalizing m trades with
  | nil =>
    simp only [publish_fills, List.foldl, List.filter_nil, List.map_nil,
      List.append_nil]
    exact (ltrimKeepLast_of_le _ _ h).symm
  | cons f fs ih =>
    by_cases hskip : should_skip_order m f.checkpoint
    · have step : publish_fill (m, trades) f = (m, trades) := by
        simp [publish_fill, hskip]
      calc (publish_fills (m, trades) (f :: fs)).2
          = (publish_fills (m, trades) fs).2 := by
            simp [publish_fills, List.foldl, step]
        _ = _ := by
            rw [ih m trades h]
            simp [List.filter_cons, hskip]
    · have step : publish_fill (m, trades) f
          = (handle_fill m f, cachePush trades (trade_record_of_fill f)) := by
        simp [publish_fill, hskip]
      have hpred : ∀ f' ∈ fs,
          (!should_skip_order (handle_fill m f) f'.checkpoint)
            = (!should_skip_order m f'.checkpoint) := by
        intro f' _
        rw [should_skip_order_handle_fill]
      calc (publish_fills (m, trades) (f :: fs)).2
          = (publish_fills (handle_fill m f,
              cachePush trades (trade_record_of_fill f)) fs).2 := by
            simp [publish_fills, List.foldl, step]
        _ = ltrimKeepLast LATEST_TRADE_SIZE
              (cachePush trades (trade_record_of_fill f) ++
                ((fs.filter fun f' =>
                    !should_skip_order (handle_fill m f) f'.checkpoint).map
                  trade_record_of_fill)) :=
            ih (handle_fill m f) _ (ltrimKeepLast_length_le _ _)
        _ = ltrimKeepLast LATEST_TRADE_SIZE
              ((trades ++ [trade_record_of_fill f]) ++
                ((fs.filter fun f' => !should_skip_order m f'.checkpoint).map
                  trade_record_of_fill)) := by
            rw [List.filter_congr hpred, cachePush, ltrimKeepLast_ltrim_append]
        _ = _ := by
            simp [List.filter_cons, hskip, List.append_assoc]

/-- C7: Starting from the cleared per-pool `latest_trades::{pool_name}`
list, after any sequence of fills the list holds the trade records of exactly
the applied fills (those above `initial_checkpoint`), trimmed to the newest
`LATEST_TRADE_SIZE = 100` entries — in particular one record per applied fill
and never more than 100 records. -/
theorem claim_C7 (m : OrderbookManager) (fills : List OrderFill) :
    (publish_fills (m, []) fills).2
        = ltrimKeepLast LATEST_TRADE_SIZE
            ((fills.filter fun f => !should_skip_order m f.checkpoint).map
              trade_record_of_fill)
    ∧ (publish_fills (m, []) fills).2.length ≤ LATEST_TRADE_SIZE := by
  have h := publish_fills_trades m [] fills (by simp [LATEST_TRADE_SIZE])
  simp only [List.nil_append] at h
  exact ⟨h, h ▸ ltrimKeepLast_length_le _ _⟩

/-! ## Claim C3: idempotence through the sequential committer

Modelled from the spec: the sequential committer of §4.4 (the
`last_applied_checkpoint` / `in_progress` discipline) is provided by the
indexing framework and is not under `src/`; only its callee
`OrderbookManager::handle_batch` is.  §4.4: values are received in order; a
value with `checkpoint ≤ last_applied_checkpoint` is discarded; when the
checkpoint changes, the prior `in_progress` checkpoint is marked complete and
`in_progress` moves to the new one; after the stream,
`last_applied_checkpoint ← in_progress`.  One pool is modelled (pools are
independent state machines, §5). -/

structure PoolBatch where
  checkpoint : Int
  updates : List OrderUpdate
  fills : List OrderFill
deriving Repr, DecidableEq

structure CommitterState where
  last_applied_checkpoint : Int
  in_progress : Int
  manager : OrderbookManager
deriving Repr, DecidableEq

/-- Modelled from the spec (§4.4): handling of one received value. -/
def committer_step (s : CommitterState) (v : PoolBatch) : CommitterState :=
  if v.checkpoint ≤ s.last_applied_checkpoint then s
  else
    let s1 :=
      if v.checkpoint ≠ s.in_progress then
        { s with last_applied_checkpoint := s.in_progress,
                 in_progress := v.checkpoint }
      else s
    { s1 with manager := (handle_batch s1.manager v.updates v.fills).manager }

/-- Modelled from the spec (§4.4): a whole commit of a stream of values,
finalized by `last_applied_checkpoint ← in_progress`. -/
def committer_commit (s : CommitterState) (vs : List PoolBatch) : CommitterState :=
  let s1 := vs.foldl committer_step s
  { s1 with last_applied_checkpoint := s1.in_progress }

/-- C3: for every book state (an idle committer, `in_progress =
`last_applied_checkpoint`) and every `PoolBatch` whose checkpoint exceeds the
pool's `initial_checkpoint`, committing the same batch twice yields the same
book state as committing it once: the second commit finds
`checkpoint ≤ last_applied_checkpoint` and discards the batch. -/
theorem claim_C3 (s : CommitterState) (v : PoolBatch)
    (hidle : s.in_progress = s.last_applied_checkpoint)
    (_hcp : s.manager.initial_checkpoint < v.checkpoint) :
    (committer_commit (committer_commit s [v]) [v]).manager
      = (committer_commit s [v]).manager := by
  by_cases hle : v.checkpoint ≤ s.last_applied_checkpoint
  · simp [committer_commit, committer_step, List.foldl, hle, hidle]
  · have hne : v.checkpoint ≠ s.in_progress := by
      rw [hidle]
      omega
    simp [committer_commit, committer_step, List.foldl, hle, hne]

theorem claim_C3_witness :
    ((100 : Int) = 100 ∧ (100 : Int) < 101)
    ∧ (committer_commit
          (committer_commit ⟨100, 100, ⟨⟨[], []⟩, 100⟩⟩
            [⟨101, [⟨101, .Placed, 5, true, 7, 7⟩], []⟩])
          [⟨101, [⟨101, .Placed, 5, true, 7, 7⟩], []⟩]).manager
        = (committer_commit ⟨100, 100, ⟨⟨[], []⟩, 100⟩⟩
            [⟨101, [⟨101, .Placed, 5, true, 7, 7⟩], []⟩]).manager :=
  ⟨⟨rfl, by decide⟩,
   claim_C3 ⟨100, 100, ⟨⟨[], []⟩, 100⟩⟩
     ⟨101, [⟨101, .Placed, 5, true, 7, 7⟩], []⟩ rfl (by decide)⟩

/-! ## Claim C9: invariants of `get_historic_orderbook`

Embedding of `crates/orderbook/src/historic_orderbook.rs`.  The database reads
(`get_txs`, `get_latest_snapshot`) and the JSON (de)serialization are I/O: the
embedding takes the starting book and the replay steps as arguments and stops
at the snapshot value.  A book side is the association list of a
`HashMap<i64, i64>` (keys unique by construction of the `entry` api). -/

inductive Op where
  | Add
  | Subtract
deriving Repr, DecidableEq

/-- Replay step (`OrderStep`); `quantity` already carries the `Modified` delta
as built in `get_txs`, and a fill row contributes `op = Subtract` with
`is_bid = !taker_is_bid`.  The checkpoint and timestamp fields only feed
logging and the snapshot timestamp and are omitted. -/
structure OrderStep where
  price : Int
  quantity : Int
  op : Op
  is_bid : Bool
deriving Repr, DecidableEq

/-- HashMap `entry(price).and_modify(modify).or_insert_with(insert)`. -/
def entryUpdate (side : List (Int × Int)) (price : Int) (modify : Int → Int)
    (insert : Int) : List (Int × Int) :=
  match side with
  | [] => [(price, insert)]
  | (k, v) :: rest =>
    if k = price then (k, modify v) :: rest
    else (k, v) :: entryUpdate rest price modify insert

/-- Body of the replay loop of `get_historic_orderbook` for one step; the book
is the pair `(asks, bids)`. -/
def applyOrderStep (book : List (Int × Int) × List (Int × Int)) (s : OrderStep) :
    List (Int × Int) × List (Int × Int) :=
  let upd := fun side =>
    entryUpdate side s.price
      (fun q => match s.op with | .Add => q + s.quantity | .Subtract => q - s.quantity)
      (match s.op with | .Add => s.quantity | .Subtract => -s.quantity)
  if s.is_bid then (book.1, upd book.2) else (upd book.1, book.2)

/-- Test used by the `Negative bid/ask` warning loops: some level is
negative. -/
def hasNegativeSide (side : List (Int × Int)) : Bool :=
  side.any fun pq => decide (pq.2 < 0)

/-- Function `has_overlap` of `historic_orderbook.rs`. -/
def has_overlap (asks bids : List (Int × Int)) : Bool :=
  match (bids.map Prod.fst).max?, (asks.map Prod.fst).min? with
  | some bid, some ask => decide (bid ≥ ask)
  | _, _ => false

inductive HistoricOrderbookError where
  | StartGreaterThanEnd
  | NegativeOrder
  | Overlap
deriving Repr, DecidableEq

structure HistoricSnapshot where
  checkpoint : Int
  asks : List (Int × Int)
  bids : List (Int × Int)
deriving Repr, DecidableEq

/-- Replayed book after the fold and the `retain(qty != 0)` pruning. -/
def replayedBook (asks0 bids0 : List (Int × Int)) (steps : List OrderStep) :
    List (Int × Int) × List (Int × Int) :=
  ((steps.foldl applyOrderStep (asks0, bids0)).1.filter fun pq => decide (pq.2 ≠ 0),
   (steps.foldl applyOrderStep (asks0, bids0)).2.filter fun pq => decide (pq.2 ≠ 0))

/-- Pure core of `get_historic_orderbook`: the guard, the replay, the pruning
and the three checks, in source order (bids negativity, asks negativity,
overlap). -/
def get_historic_orderbook (start_checkpoint end_checkpoint : Int)
    (asks0 bids0 : List (Int × Int)) (steps : List OrderStep) :
    Except HistoricOrderbookError HistoricSnapshot :=
  if start_checkpoint ≥ end_checkpoint then .error .StartGreaterThanEnd
  else
    let book := replayedBook asks0 bids0 steps
    if hasNegativeSide book.2 then .error .NegativeOrder
    else if hasNegativeSide book.1 then .error .NegativeOrder
    else if has_overlap book.1 book.2 then .error .Overlap
    else .ok ⟨end_checkpoint, book.1, book.2⟩

theorem side_pos_of_no_negative (side : List (Int × Int))
    (h : hasNegativeSide (side.filter fun pq => decide (pq.2 ≠ 0)) = false) :
    ∀ pq ∈ side.filter (fun pq => decide (pq.2 ≠ 0)), 0 < pq.2 := by
  intro pq hm
  have h1 : pq.2 ≠ 0 := by simpa using (List.mem_filter.mp hm).2
  have h2 : ¬ (pq.2 < 0) := by
    intro hneg
    have : hasNegativeSide (side.filter fun pq => decide (pq.2 ≠ 0)) = true :=
      List.any_eq_true.mpr ⟨pq, hm, by simpa using hneg⟩
    rw [this] at h
    exact Bool.true_eq_false.mp h
  omega

theorem no_overlap_lt (asks bids : List (Int × Int))
    (h : has_overlap asks bids = false) :
    ∀ bid ∈ (bids.map Prod.fst).max?, ∀ ask ∈ (asks.map Prod.fst).min?,
      bid < ask := by
  intro bid hbid ask hask
  rw [Option.mem_def] at hbid hask
  rw [has_overlap, hbid, hask] at h
  simpa using h

/-- C9: every snapshot `get_historic_orderbook` returns with `Ok` satisfies
the book invariants — every level on both sides holds a strictly positive
size, and the maximum bid price is strictly below the minimum ask price when
both sides are non-empty — and whenever the replayed, pruned book violates
them (a negative level or an overlap), the function returns the
`NegativeOrder` or `Overlap` error instead of a snapshot. -/
theorem claim_C9 (start_checkpoint end_checkpoint : Int)
    (asks0 bids0 : List (Int × Int)) (steps : List OrderStep) :
    (∀ snap,
      get_historic_orderbook start_checkpoint end_checkpoint asks0 bids0 steps
          = .ok snap →
        (∀ pq ∈ snap.asks, 0 < pq.2) ∧ (∀ pq ∈ snap.bids, 0 < pq.2)
        ∧ (∀ bid ∈ (snap.bids.map Prod.fst).max?,
            ∀ ask ∈ (snap.asks.map Prod.fst).min?, bid < ask))
    ∧ (start_checkpoint < end_checkpoint →
        (hasNegativeSide (replayedBook asks0 bids0 steps).2
          || hasNegativeSide (replayedBook asks0 bids0 steps).1
          || has_overlap (replayedBook asks0 bids0 steps).1
              (replayedBook asks0 bids0 steps).2) = true →
        get_historic_orderbook start_checkpoint end_checkpoint asks0 bids0 steps
            = .error .NegativeOrder
          ∨ get_historic_orderbook start_checkpoint end_checkpoint asks0 bids0 steps
              = .error .Overlap) := by
  by_cases hse : start_checkpoint ≥ end_checkpoint
  · constructor
    · intro snap hok
      rw [get_historic_orderbook, if_pos hse] at hok
      exact absurd hok (by simp)
    · intro hlt
      omega
  · have hstart : ¬ (start_checkpoint ≥ end_checkpoint) := hse
    by_cases hnb : hasNegativeSide (replayedBook asks0 bids0 steps).2
    · constructor
      · intro snap hok
        rw [get_historic_orderbook, if_neg hstart] at hok
        simp only [hnb, if_true] at hok
        exact absurd hok (by simp)
      · intro _ _
        left
        rw [get_historic_orderbook, if_neg hstart]
        simp [hnb]
    · by_cases hna : hasNegativeSide (replayedBook asks0 bids0 steps).1
      · constructor
        · intro snap hok
          rw [get_historic_orderbook, if_neg hstart] at hok
          simp only [hnb, hna, Bool.false_eq_true, if_false, if_true] at hok
          exact absurd hok (by simp)
        · intro _ _
          left
          rw [get_historic_orderbook, if_neg hstart]
          simp [hnb, hna]
      · by_cases hov : has_overlap (replayedBook asks0 bids0 steps).1
            (replayedBook asks0 bids0 steps).2
        · constructor
          · intro snap hok
            rw [get_historic_orderbook, if_neg hstart] at hok
            simp only [hnb, hna, hov, Bool.false_eq_true, if_false, if_true] at hok
            exact absurd hok (by simp)
          · intro _ _
            right
            rw [get_historic_orderbook, if_neg hstart]
            simp [hnb, hna, hov]
        · constructor
          · intro snap hok
            rw [get_historic_orderbook, if_neg hstart] at hok
            simp only [hnb, hna, hov, Bool.false_eq_true, if_false] at hok
            have hsnap := Except.ok.inj hok
            subst hsnap
            rw [Bool.not_eq_true] at hna hnb hov
            simp only [replayedBook] at hna hnb hov
            exact ⟨side_pos_of_no_negative _ hna, side_pos_of_no_negative _ hnb,
              no_overlap_lt _ _ hov⟩
          · intro _ hviol
            rw [Bool.not_eq_true] at hna hnb hov
            rw [hnb, hna, hov] at hviol
            exact absurd hviol (by simp)

theorem claim_C9_witness :
    (get_historic_orderbook 0 1 [] []
        [⟨110, 7, .Add, false⟩, ⟨100, 5, .Add, true⟩]
      = .ok ⟨1, [(110, 7)], [(100, 5)]⟩
      ∧ (∀ pq ∈ [((110 : Int), (7 : Int))], 0 < pq.2))
    ∧ ((0 : Int) < 1
      ∧ (get_historic_orderbook 0 1 [] [] [⟨100, 5, .Subtract, true⟩]
          = .error .NegativeOrder
        ∨ get_historic_orderbook 0 1 [] [] [⟨100, 5, .Subtract, true⟩]
          = .error .Overlap)) :=
  ⟨⟨rfl,
    ((claim_C9 0 1 [] [] [⟨110, 7, .Add, false⟩, ⟨100, 5, .Add, true⟩]).1
        ⟨1, [(110, 7)], [(100, 5)]⟩ rfl).1⟩,
   ⟨by decide,
    (claim_C9 0 1 [] [] [⟨100, 5, .Subtract, true⟩]).2 (by decide) (by decide)⟩⟩

/-! ## Claim C10: RuntimeStore watermarks

Embedding of `crates/orderbook/src/runtime_store.rs`.  The `watermarks`
`HashMap<String, RuntimeWatermark>` guarded by the store mutex is modelled as
a function `String → Option RuntimeWatermark`; `u64` fields are `Nat`. -/

structure RuntimeWatermark where
  epoch_hi_inclusive : Nat
  checkpoint_hi_inclusive : Nat
  tx_hi : Nat
  timestamp_ms_hi_inclusive : Nat
  reader_lo : Nat
  pruner_timestamp_ms : Nat
  pruner_hi : Nat
deriving Repr, DecidableEq

/-- Value of `RuntimeWatermark::default()`. -/
def RuntimeWatermark.zero : RuntimeWatermark := ⟨0, 0, 0, 0, 0, 0, 0⟩

structure CommitterWatermark where
  epoch_hi_inclusive : Nat
  checkpoint_hi_inclusive : Nat
  tx_hi : Nat
  timestamp_ms_hi_inclusive : Nat
deriving Repr, DecidableEq

abbrev WatermarkMap : Type := String → Option RuntimeWatermark

/-- Function `RuntimeConnection::init_watermark`: return the existing
watermark's checkpoint if present; otherwise insert a fresh entry at
`default_next_checkpoint - 1` (`checked_sub`: `none` when
`default_next_checkpoint = 0`, nothing inserted). -/
def init_watermark (map : WatermarkMap) (pipeline_task : String)
    (default_next_checkpoint : Nat) : Option Nat × WatermarkMap :=
  match map pipeline_task with
  | some existing => (some existing.checkpoint_hi_inclusive, map)
  | none =>
    if default_next_checkpoint = 0 then (none, map)
    else
      (some (default_next_checkpoint - 1),
       fun q =>
         if q = pipeline_task then
           some { RuntimeWatermark.zero with
                  checkpoint_hi_inclusive := default_next_checkpoint - 1,
                  reader_lo := default_next_checkpoint,
                  pruner_hi := default_next_checkpoint }
         else map q)

/-- Function `RuntimeConnection::set_committer_watermark`:
`entry(..).or_default()` materializes a default entry when absent; an offered
checkpoint lower than the stored one is rejected (`Ok(false)`), otherwise the
four committer fields are overwritten (`Ok(true)`). -/
def set_committer_watermark (map : WatermarkMap) (pipeline_task : String)
    (watermark : CommitterWatermark) : Bool × WatermarkMap :=
  let entry := (map pipeline_task).getD RuntimeWatermark.zero
  if watermark.checkpoint_hi_inclusive < entry.checkpoint_hi_inclusive then
    (false, fun q => if q = pipeline_task then some entry else map q)
  else
    (true,
     fun q =>
       if q = pipeline_task then
         some { entry with
                epoch_hi_inclusive := watermark.epoch_hi_inclusive,
                checkpoint_hi_inclusive := watermark.checkpoint_hi_inclusive,
                tx_hi := watermark.tx_hi,
                timestamp_ms_hi_inclusive := watermark.timestamp_ms_hi_inclusive }
       else map q)

/-- Calls the claim quantifies over. -/
inductive WatermarkOp where
  | initWm (pipeline_task : String) (default_next_checkpoint : Nat)
  | setCommitter (pipeline_task : String) (watermark : CommitterWatermark)

def applyWatermarkOp (map : WatermarkMap) : WatermarkOp → WatermarkMap
  | .initWm p d => (init_watermark map p d).2
  | .setCommitter p w => (set_committer_watermark map p w).2

def storedCheckpoint (map : WatermarkMap) (p : String) : Option Nat :=
  (map p).map RuntimeWatermark.checkpoint_hi_inclusive

/-- Checkpoints an op writes into pipeline `p`'s entry ("accepted"): an
`init_watermark` that inserts, or a `set_committer_watermark` that returns
`true`. -/
def acceptedCheckpoints (map : WatermarkMap) (p : String) :
    WatermarkOp → List Nat
  | .initWm q d =>
    if q = p then
      match map q with
      | some _ => []
      | none => if d = 0 then [] else [d - 1]
    else []
  | .setCommitter q w =>
    if q = p then
      if (set_committer_watermark map q w).1 then [w.checkpoint_hi_inclusive]
      else []
    else []

def runWatermarkOps (map : WatermarkMap) : List WatermarkOp → WatermarkMap
  | [] => map
  | op :: ops => runWatermarkOps (applyWatermarkOp map op) ops

def acceptedRun (map : WatermarkMap) (p : String) :
    List WatermarkOp → List Nat
  | [] => []
  | op :: ops =>
    acceptedCheckpoints map p op ++ acceptedRun (applyWatermarkOp map op) p ops

/-- Running maximum of accepted checkpoints over a starting value. -/
def maxAccepted (o : Option Nat) (l : List Nat) : Option Nat :=
  l.foldl (fun acc c => some (match acc with | none => c | some x => max x c)) o

theorem storedCheckpoint_applyOp (map : WatermarkMap) (p : String)
    (op : WatermarkOp) :
    storedCheckpoint (applyWatermarkOp map op) p
      = maxAccepted (storedCheckpoint map p) (acceptedCheckpoints map p op) := by
  cases op with
  | initWm q d =>
    by_cases hq : q = p
    · subst hq
      cases hm : map q with
      | some e => simp [applyWatermarkOp, init_watermark, acceptedCheckpoints,
          storedCheckpoint, maxAccepted, hm]
      | none =>
        by_cases hd : d = 0
        · simp [applyWatermarkOp, init_watermark, acceptedCheckpoints,
            storedCheckpoint, maxAccepted, hm, hd]
        · simp [applyWatermarkOp, init_watermark, acceptedCheckpoints,
            storedCheckpoint, maxAccepted, hm, hd]
    · have hq2 : ¬ (p = q) := fun hc => hq hc.symm
      cases hm : map q with
      | some e => simp [applyWatermarkOp, init_watermark, acceptedCheckpoints,
          storedCheckpoint, maxAccepted, hm, hq]
      | none =>
        by_cases hd : d = 0
        · simp [applyWatermarkOp, init_watermark, acceptedCheckpoints,
            storedCheckpoint, maxAccepted, hm, hd, hq]
        · simp [applyWatermarkOp, init_watermark, acceptedCheckpoints,
            storedCheckpoint, maxAccepted, hm, hd, hq, hq2]
  | setCommitter q w =>
    by_cases hq : q = p
    · subst hq
      cases hm : map q with
      | none =>
        have hcmp : ¬ (w.checkpoint_hi_inclusive
            < RuntimeWatermark.zero.checkpoint_hi_inclusive) := by
          simp [RuntimeWatermark.zero]
        simp [applyWatermarkOp, set_committer_watermark, acceptedCheckpoints,
          storedCheckpoint, maxAccepted, hm, hcmp, RuntimeWatermark.zero]
      | some e =>
        by_cases hcmp : w.checkpoint_hi_inclusive < e.checkpoint_hi_inclusive
        · simp [applyWatermarkOp, set_committer_watermark, acceptedCheckpoints,
            storedCheckpoint, maxAccepted, hm, hcmp]
        · have hmax : max e.checkpoint_hi_inclusive w.checkpoint_hi_inclusive
              = w.checkpoint_hi_inclusive := by omega
          simp [applyWatermarkOp, set_committer_watermark, acceptedCheckpoints,
            storedCheckpoint, maxAccepted, hm, hcmp, hmax]
    · have hq2 : ¬ (p = q) := fun hc => hq hc.symm
      by_cases hcmp : w.checkpoint_hi_inclusive
          < ((map q).getD RuntimeWatermark.zero).checkpoint_hi_inclusive
      · simp [applyWatermarkOp, set_committer_watermark, acceptedCheckpoints,
          storedCheckpoint, maxAccepted, hcmp, hq, hq2]
      · simp [applyWatermarkOp, set_committer_watermark, acceptedCheckpoints,
          storedCheckpoint, maxAccepted, hcmp, hq, hq2]

theorem maxAccepted_append (o : Option Nat) (l1 l2 : List Nat) :
    maxAccepted o (l1 ++ l2) = maxAccepted (maxAccepted o l1) l2 := by
  simp [maxAccepted, List.foldl_append]

theorem storedCheckpoint_runOps (ops : List WatermarkOp) (map : WatermarkMap)
    (p : String) :
    storedCheckpoint (runWatermarkOps map ops) p
      = maxAccepted (storedCheckpoint map p) (acceptedRun map p ops) := by
  induction ops generalizing map with
  | nil => rfl
  | cons op ops ih =>
    rw [runWatermarkOps, acceptedRun, maxAccepted_append, ih,
      storedCheckpoint_applyOp]

theorem maxAccepted_ge (c : Nat) (l : List Nat) :
    ∃ c2, maxAccepted (some c) l = some c2 ∧ c ≤ c2 := by
  induction l generalizing c with
  | nil => exact ⟨c, rfl, le_refl c⟩
  | cons a l ih =>
    obtain ⟨c2, h1, h2⟩ := ih (max c a)
    exact ⟨c2, h1, le_trans (Nat.le_max_left c a) h2⟩

/-- C10: for every pipeline, `set_committer_watermark` returns `false` and
leaves the map untouched whenever the offered `checkpoint_hi_inclusive` is
lower than the stored one, and otherwise overwrites the entry's four committer
fields and returns `true`; the stored checkpoint never decreases under
`init_watermark` / `set_committer_watermark`, and after any sequence of such
calls from the empty store it equals the maximum checkpoint ever accepted. -/
theorem claim_C10 :
    (∀ (map : WatermarkMap) (p : String) (w : CommitterWatermark)
        (e : RuntimeWatermark),
      map p = some e →
      w.checkpoint_hi_inclusive < e.checkpoint_hi_inclusive →
        (set_committer_watermark map p w).1 = false
        ∧ ∀ q, (set_committer_watermark map p w).2 q = map q)
    ∧ (∀ (map : WatermarkMap) (p : String) (w : CommitterWatermark)
        (e : RuntimeWatermark),
      map p = some e →
      ¬ (w.checkpoint_hi_inclusive < e.checkpoint_hi_inclusive) →
        (set_committer_watermark map p w).1 = true
        ∧ (set_committer_watermark map p w).2 p
            = some { e with
                     epoch_hi_inclusive := w.epoch_hi_inclusive,
                     checkpoint_hi_inclusive := w.checkpoint_hi_inclusive,
                     tx_hi := w.tx_hi,
                     timestamp_ms_hi_inclusive := w.timestamp_ms_hi_inclusive })
    ∧ (∀ (map : WatermarkMap) (op : WatermarkOp) (p : String) (c : Nat),
      storedCheckpoint map p = some c →
        ∃ c2, storedCheckpoint (applyWatermarkOp map op) p = some c2 ∧ c ≤ c2)
    ∧ (∀ (ops : List WatermarkOp) (p : String),
      storedCheckpoint (runWatermarkOps (fun _ => none) ops) p
        = maxAccepted none (acceptedRun (fun _ => none) p ops)) := by
  refine ⟨?_, ?_, ?_, ?_⟩
  · intro map p w e hm hlt
    refine ⟨by simp [set_committer_watermark, hm, hlt], fun q => ?_⟩
    by_cases hq : q = p
    · subst hq
      simp [set_committer_watermark, hm, hlt]
    · simp [set_committer_watermark, hm, hlt, hq]
  · intro map p w e hm hge
    constructor
    · simp [set_committer_watermark, hm, hge]
    · simp [set_committer_watermark, hm, hge]
  · intro map op p c hc
    rw [storedCheckpoint_applyOp, hc]
    exact maxAccepted_ge c (acceptedCheckpoints map p op)
  · intro ops p
    exact storedCheckpoint_runOps ops (fun _ => none) p

/-- Concrete store used by the C10 witness. -/
def wm_entry0 : RuntimeWatermark := ⟨1, 5, 2, 3, 0, 0, 0⟩

/-- Concrete watermark map with one pipeline entry, used by the C10 witness. -/
def wmap0 : WatermarkMap :=
  fun q => if q = "order_update" then some wm_entry0 else none

theorem claim_C10_witness :
    ((set_committer_watermark wmap0 "order_update" ⟨0, 3, 0, 0⟩).1 = false
      ∧ (set_committer_watermark wmap0 "order_update" ⟨0, 3, 0, 0⟩).2
          "order_update" = wmap0 "order_update")
    ∧ ((set_committer_watermark wmap0 "order_update" ⟨4, 9, 6, 7⟩).1 = true
      ∧ (set_committer_watermark wmap0 "order_update" ⟨4, 9, 6, 7⟩).2
          "order_update" = some ⟨4, 9, 6, 7, 0, 0, 0⟩)
    ∧ (∃ c2, storedCheckpoint
          (applyWatermarkOp wmap0 (.setCommitter "order_update" ⟨4, 9, 6, 7⟩))
          "order_update" = some c2 ∧ 5 ≤ c2) :=
  ⟨⟨(claim_C10.1 wmap0 "order_update" ⟨0, 3, 0, 0⟩ wm_entry0 (by simp [wmap0])
      (by simp [wm_entry0])).1,
    (claim_C10.1 wmap0 "order_update" ⟨0, 3, 0, 0⟩ wm_entry0 (by simp [wmap0])
      (by simp [wm_entry0])).2 "order_update"⟩,
   (claim_C10.2.1 wmap0 "order_update" ⟨4, 9, 6, 7⟩ wm_entry0 (by simp [wmap0])
      (by simp [wm_entry0])),
   claim_C10.2.2.1 wmap0 (.setCommitter "order_update" ⟨4, 9, 6, 7⟩)
     "order_update" 5 (by simp [storedCheckpoint, wmap0, wm_entry0])⟩

end Deeplook
